import Mathlib

/-
  Verification development for the cluster-topology tracking core
  (cluster_metadata.go).

  The Go code mutates a ClusterMetadata object reached through an
  atomic.Value slot.  We embed the heap explicitly: allocated
  ClusterMetadata snapshots live in a list (`heap`), a reference is an
  index into that list, and the atomic slot (`metadata`) holds an
  optional reference.  `getMetadataForUpdate` allocates a fresh cell
  holding a shallow copy of the published snapshot; in-place updates of
  the working copy are writes to that fresh cell.  A Go panic (explicit
  `panic`, or a call through a nil function field before `init`) is
  modelled by the second component of each operation result: `some msg`
  means the operation panicked, and the first component is the manager
  state at the moment of the panic.

  Collaborators whose code is not part of this file in the repository
  (cowHostList, newTokenRing, the replication strategies, getStrategy)
  are modelled from the spec; their definitions say so in their doc
  comments.  Logging is not observable and is dropped.
-/

namespace Gocql

/-- Modelled from the spec: a host descriptor whose identity is its
connect address; the datacenter and the token-ownership list are the
attributes TokenRing and the strategies need. -/
structure HostInfo where
  connectAddress : String
  datacenter : String
  tokens : List Int
deriving DecidableEq

/-- Modelled from the spec: an ordered sequence of (token, owning host)
pairs sorted ascending by token value.  Immutable after construction. -/
structure TokenRing where
  entries : List (Int × HostInfo)
deriving DecidableEq

/-- Modelled from the spec: the partitioner names the ring constructor
recognizes. -/
def knownPartitioners : List String :=
  ["Murmur3Partitioner", "RandomPartitioner", "OrderedPartitioner"]

def insertByToken (e : Int × HostInfo) : List (Int × HostInfo) → List (Int × HostInfo)
  | [] => [e]
  | x :: xs => if e.1 ≤ x.1 then e :: x :: xs else x :: insertByToken e xs

def sortByToken (l : List (Int × HostInfo)) : List (Int × HostInfo) :=
  l.foldr insertByToken []

/-- Modelled from the spec: build(partitionerName, hosts) fails with
UnknownPartitioner if the name is unrecognized, or NoTokensAvailable if
no supplied host carries token-ownership metadata; on success it
produces the sorted sequence of all (token, host) pairs. -/
def newTokenRing (partitioner : String) (hosts : List HostInfo) :
    Except String TokenRing :=
  if knownPartitioners.contains partitioner then
    let entries :=
      hosts.foldr (fun h acc => h.tokens.map (fun t => (t, h)) ++ acc) []
    if entries.isEmpty then Except.error "no tokens available"
    else Except.ok ⟨sortByToken entries⟩
  else Except.error "unknown partitioner"

/-- One entry of a replica map: a token together with the ordered
replica set owning it (Go type hostTokens). -/
structure hostTokens where
  token : Int
  hosts : List HostInfo
deriving DecidableEq

/-- Go type tokenRingReplicas: the replica map for one keyspace. -/
abbrev tokenRingReplicas := List hostTokens

/-- Association-list lookup by keyspace name, the reading discipline for
the Go map[string] values of the model. -/
def lookupKs {β : Type} : List (String × β) → String → Option β
  | [], _ => none
  | (k, v) :: rest, key => if k = key then some v else lookupKs rest key

/-- Hosts of the ring in clockwise order starting at entry index
`start`, wrapping around. -/
def ringWalkHosts (ring : TokenRing) (start : Nat) : List HostInfo :=
  (List.range ring.entries.length).filterMap
    (fun i => (ring.entries[(start + i) % ring.entries.length]?).map Prod.snd)

def dedupKeep (hs : List HostInfo) : List HostInfo :=
  hs.foldl (fun acc h => if acc.contains h then acc else acc ++ [h]) []

/-- Modelled from the spec: replicaWalk(token, count) walks clockwise
from the owner, collecting the first `count` distinct hosts. -/
def TokenRing.replicaWalk (ring : TokenRing) (start count : Nat) : List HostInfo :=
  (dedupKeep (ringWalkHosts ring start)).take count

/-- Modelled from the spec: NetworkTopologyStrategy walks the ring
collecting hosts until each datacenter target count is satisfied or the
ring is exhausted. -/
def ntsWalk (dcFactors : List (String × Nat)) (hs : List HostInfo) : List HostInfo :=
  hs.foldl
    (fun acc h =>
      if acc.contains h then acc
      else if (acc.filter (fun x => x.datacenter = h.datacenter)).length <
              (lookupKs dcFactors h.datacenter).getD 0 then acc ++ [h]
      else acc) []

/-- Modelled from the spec: the replication strategy variant family. -/
inductive ReplicationStrategy where
  | simpleStrategy (rf : Nat)
  | networkTopology (dcFactors : List (String × Nat))
deriving DecidableEq

/-- Modelled from the spec: replicaMap(tokenRing) computes, for every
distinct ring token, the ordered replica set for that token. -/
def ReplicationStrategy.replicaMap (strat : ReplicationStrategy)
    (ring : TokenRing) : tokenRingReplicas :=
  (List.range ring.entries.length).filterMap fun i =>
    (ring.entries[i]?).map fun e =>
      match strat with
      | .simpleStrategy rf => ⟨e.1, ring.replicaWalk i rf⟩
      | .networkTopology dcf => ⟨e.1, ntsWalk dcf (dedupKeep (ringWalkHosts ring i))⟩

/-- Modelled from the spec: the keyspace schema metadata handed back by
the keyspace resolver collaborator, carrying a strategy class name and
its options. -/
structure KeyspaceMetadata where
  name : String
  strategyClass : String
  strategyOptions : List (String × Nat)
deriving DecidableEq

/-- Modelled from the spec: getStrategy resolves the strategy class of
the keyspace metadata; an unrecognized or unsupported class yields no
strategy. -/
def getStrategy (ks : KeyspaceMetadata) : Option ReplicationStrategy :=
  if ks.strategyClass = "SimpleStrategy" then
    some (.simpleStrategy ((lookupKs ks.strategyOptions "replication_factor").getD 1))
  else if ks.strategyClass = "NetworkTopologyStrategy" then
    some (.networkTopology ks.strategyOptions)
  else none

/-- Modelled from the spec: the copy-on-write host registry, an ordered
set of hosts unique by connect address. -/
abbrev cowHostList := List HostInfo

/-- Modelled from the spec: add returns whether membership actually
changed; adding an already-known address changes nothing. -/
def cowHostList.add (l : cowHostList) (host : HostInfo) : cowHostList × Bool :=
  if l.any (fun x => x.connectAddress == host.connectAddress) then (l, false)
  else (l ++ [host], true)

/-- Modelled from the spec: remove by connect address returns whether
membership actually changed. -/
def cowHostList.remove (l : cowHostList) (addr : String) : cowHostList × Bool :=
  if l.any (fun x => x.connectAddress == addr) then
    (l.filter (fun x => x.connectAddress != addr), true)
  else (l, false)

/-- ClusterMetadata: the published snapshot bundle.  The Go map
map[string]tokenRingReplicas is embedded as an association list read
through lookupKs; the source never mutates a map stored in a snapshot
(updateReplicas builds a fresh map and assigns it), so the map is a
plain value of the snapshot. -/
structure ClusterMetadata where
  replicas : List (String × tokenRingReplicas)
  tokenRing : Option TokenRing
deriving DecidableEq

/-- The zero value new(ClusterMetadata): nil map, nil ring. -/
def ClusterMetadata.empty : ClusterMetadata :=
  { replicas := [], tokenRing := none }

/-- TokenRing accessor of a snapshot. -/
def ClusterMetadata.TokenRing (m : ClusterMetadata) : Option TokenRing :=
  m.tokenRing

/-- resetTokenRing: no change if the partitioner is not yet set; on a
build error the old ring is retained (the source logs and returns);
otherwise the ring field of the working copy is replaced. -/
def ClusterMetadata.resetTokenRing (m : ClusterMetadata) (partitioner : String)
    (hosts : List HostInfo) : ClusterMetadata :=
  if partitioner = "" then m
  else
    match newTokenRing partitioner hosts with
    | Except.error _ => m
    | Except.ok tr => { m with tokenRing := some tr }

/-- clusterMetadataManager.  getKeyspaceMetadata and getKeyspaceName are
nil before init (the bound keyspace-name closure returns a fixed
string); heap is the explicit allocation list for ClusterMetadata
cells; metadata is the atomic slot holding the published reference. -/
structure clusterMetadataManager where
  getKeyspaceMetadata : Option (String → Except String KeyspaceMetadata)
  getKeyspaceName : Option String
  hosts : cowHostList
  partitioner : String
  heap : List ClusterMetadata
  metadata : Option Nat

/-- The Go panic message raised when a nil function field is called. -/
def nilFuncPanic : String :=
  "runtime error: invalid memory address or nil pointer dereference"

/-- The explicit panic message of init. -/
def reInitPanic : String :=
  "sharing token aware host selection policy between sessions is not supported"

/-- getMetadataReadOnly: the lock-free read of the atomic slot; the
returned value is a reference (heap index) or none. -/
def clusterMetadataManager.getMetadataReadOnly (m : clusterMetadataManager) :
    Option Nat :=
  m.metadata

/-- Dereference the published reference: the snapshot value a reader of
getMetadataReadOnly observes. -/
def clusterMetadataManager.readSnapshot (m : clusterMetadataManager) :
    Option ClusterMetadata :=
  m.metadata.bind (fun a => m.heap[a]?)

/-- The value placed in the fresh working cell: a shallow copy of the
published snapshot, or the zero value when nothing is published. -/
def clusterMetadataManager.workingCopy (m : clusterMetadataManager) :
    ClusterMetadata :=
  (m.readSnapshot).getD ClusterMetadata.empty

/-- getMetadataForUpdate: allocate a fresh cell holding the working
copy and return the manager with the extended heap together with the
fresh reference. -/
def clusterMetadataManager.getMetadataForUpdate (m : clusterMetadataManager) :
    clusterMetadataManager × Nat :=
  ({ m with heap := m.heap ++ [m.workingCopy] }, m.heap.length)

/-- The copy loop of updateReplicas: carry over every entry whose key
differs from the target keyspace. -/
def dropKs {β : Type} : List (String × β) → String → List (String × β)
  | [], _ => []
  | (k, v) :: rest, key =>
    if k = key then dropKs rest key else (k, v) :: dropKs rest key

/-- updateReplicas body, given the resolver the manager carries: the
new map gets an entry for the target keyspace only when resolution
succeeds, a strategy exists and a ring is present; every other
keyspace entry of the old map is carried over; the ring is untouched. -/
def updateReplicasWith (resolve : String → Except String KeyspaceMetadata)
    (meta : ClusterMetadata) (keyspace : String) : ClusterMetadata :=
  let base : List (String × tokenRingReplicas) :=
    match resolve keyspace with
    | Except.ok ks =>
      match getStrategy ks with
      | some strat =>
        match meta.tokenRing with
        | some ring => [(keyspace, strat.replicaMap ring)]
        | none => []
      | none => []
    | Except.error _ => []
  { meta with replicas := base ++ dropKs meta.replicas keyspace }

/-- init: one-time wiring of the resolver and keyspace-name bindings; a
second call panics before touching any binding. -/
def clusterMetadataManager.init (m : clusterMetadataManager)
    (resolve : String → Except String KeyspaceMetadata) (keyspaceName : String) :
    clusterMetadataManager × Option String :=
  match m.getKeyspaceMetadata with
  | some _ => (m, some reInitPanic)
  | none =>
    ({ m with getKeyspaceMetadata := some resolve,
              getKeyspaceName := some keyspaceName }, none)

/-- keyspaceChanged: fresh working copy, updateReplicas for the event
keyspace, store.  A nil resolver (before init) panics inside
updateReplicas, after the fresh cell was already allocated. -/
def clusterMetadataManager.keyspaceChanged (m : clusterMetadataManager)
    (keyspace : String) : clusterMetadataManager × Option String :=
  let p := m.getMetadataForUpdate
  match p.1.getKeyspaceMetadata with
  | none => (p.1, some nilFuncPanic)
  | some resolve =>
    let meta1 := updateReplicasWith resolve
      ((p.1.heap[p.2]?).getD ClusterMetadata.empty) keyspace
    ({ p.1 with heap := p.1.heap.set p.2 meta1, metadata := some p.2 }, none)

/-- Shared publish path of setPartitioner, addHost, addHosts and
removeHost: fresh working copy, resetTokenRing from the current
partitioner and hosts, updateReplicas for the active keyspace, store.
Before init the nil getKeyspaceName closure is called first (as an
argument of updateReplicas) and panics; the nil resolver would panic
inside updateReplicas. -/
def clusterMetadataManager.rebuildAndStore (m : clusterMetadataManager) :
    clusterMetadataManager × Option String :=
  let p := m.getMetadataForUpdate
  let meta1 := ((p.1.heap[p.2]?).getD ClusterMetadata.empty).resetTokenRing
    p.1.partitioner p.1.hosts
  let m2 := { p.1 with heap := p.1.heap.set p.2 meta1 }
  match m2.getKeyspaceName with
  | none => (m2, some nilFuncPanic)
  | some ksName =>
    match m2.getKeyspaceMetadata with
    | none => (m2, some nilFuncPanic)
    | some resolve =>
      ({ m2 with heap := m2.heap.set p.2 (updateReplicasWith resolve meta1 ksName),
                 metadata := some p.2 }, none)

/-- setPartitioner: no-op if unchanged, otherwise store the new
partitioner and rebuild. -/
def clusterMetadataManager.setPartitioner (m : clusterMetadataManager)
    (partitioner : String) : clusterMetadataManager × Option String :=
  if m.partitioner = partitioner then (m, none)
  else clusterMetadataManager.rebuildAndStore { m with partitioner := partitioner }

/-- addHost: rebuild and publish only when membership actually
changed. -/
def clusterMetadataManager.addHost (m : clusterMetadataManager)
    (host : HostInfo) : clusterMetadataManager × Option String :=
  let r := cowHostList.add m.hosts host
  if r.2 then clusterMetadataManager.rebuildAndStore { m with hosts := r.1 }
  else (m, none)

/-- addHosts: add every host, then rebuild and publish
unconditionally. -/
def clusterMetadataManager.addHosts (m : clusterMetadataManager)
    (hosts : List HostInfo) : clusterMetadataManager × Option String :=
  let hosts1 := hosts.foldl (fun acc h => (cowHostList.add acc h).1) m.hosts
  clusterMetadataManager.rebuildAndStore { m with hosts := hosts1 }

/-- removeHost: rebuild and publish only when membership actually
changed. -/
def clusterMetadataManager.removeHost (m : clusterMetadataManager)
    (host : HostInfo) : clusterMetadataManager × Option String :=
  let r := cowHostList.remove m.hosts host.connectAddress
  if r.2 then clusterMetadataManager.rebuildAndStore { m with hosts := r.1 }
  else (m, none)

/-- The zero-value manager: no bindings, no hosts, no partitioner, no
allocation, nothing published. -/
def initialManager : clusterMetadataManager :=
  { getKeyspaceMetadata := none, getKeyspaceName := none, hosts := [],
    partitioner := "", heap := [], metadata := none }

/-- The public mutating operations of the manager, for quantifying over
operation sequences. -/
inductive MgrOp where
  | opInit (resolve : String → Except String KeyspaceMetadata) (keyspaceName : String)
  | opKeyspaceChanged (keyspace : String)
  | opSetPartitioner (partitioner : String)
  | opAddHost (host : HostInfo)
  | opAddHosts (hosts : List HostInfo)
  | opRemoveHost (host : HostInfo)

def MgrOp.run : MgrOp → clusterMetadataManager → clusterMetadataManager × Option String
  | .opInit resolve ksName, m => m.init resolve ksName
  | .opKeyspaceChanged ks, m => m.keyspaceChanged ks
  | .opSetPartitioner p, m => m.setPartitioner p
  | .opAddHost h, m => m.addHost h
  | .opAddHosts hs, m => m.addHosts hs
  | .opRemoveHost h, m => m.removeHost h

/-- Run a sequence of operations; a panic stops the sequence at the
state the panicking operation left behind. -/
def runOps : List MgrOp → clusterMetadataManager → clusterMetadataManager × Option String
  | [], m => (m, none)
  | op :: rest, m =>
    match op.run m with
    | (m1, none) => runOps rest m1
    | (m1, some e) => (m1, some e)

/-! Basic list lemmas about the heap representation. -/

theorem setAppendLen {α : Type} (l : List α) (a b : α) :
    (l ++ [a]).set l.length b = l ++ [b] := by
  induction l with
  | nil => rfl
  | cons x xs ih => simp [List.set, ih]

theorem getAppendLen {α : Type} (l : List α) (a : α) :
    (l ++ [a])[l.length]? = some a := by
  induction l with
  | nil => rfl
  | cons x xs ih => simp [ih]

theorem getAppendLt {α : Type} (l : List α) (a : α) (i : Nat) (h : i < l.length) :
    (l ++ [a])[i]? = l[i]? := by
  induction l generalizing i with
  | nil => exact absurd h (by simp)
  | cons x xs ih =>
    cases i with
    | zero => simp
    | succ j => simpa using ih j (by simpa using h)

theorem getSomeLt {α : Type} {l : List α} {i : Nat} {a : α}
    (h : l[i]? = some a) : i < l.length := by
  by_contra hn
  rw [List.getElem?_eq_none (Nat.le_of_not_lt hn)] at h
  exact Option.noConfusion h

/-! Frame lemmas about updateReplicasWith. -/

theorem lookupKs_dropKs_ne {β : Type} (l : List (String × β)) (ks key : String)
    (h : key ≠ ks) :
    lookupKs (dropKs l ks) key = lookupKs l key := by
  induction l with
  | nil => rfl
  | cons p rest ih =>
    obtain ⟨k, v⟩ := p
    by_cases hp : k = ks
    · have hk2 : ¬ ks = key := fun hkk => h hkk.symm
      simp [dropKs, hp, lookupKs, hk2, ih]
    · simp [dropKs, hp, lookupKs, ih]

theorem lookupKs_dropKs_self {β : Type} (l : List (String × β)) (ks : String) :
    lookupKs (dropKs l ks) ks = none := by
  induction l with
  | nil => rfl
  | cons p rest ih =>
    obtain ⟨k, v⟩ := p
    by_cases hp : k = ks
    · simp [dropKs, hp, ih]
    · simp [dropKs, hp, lookupKs, ih]

theorem updateReplicasWith_tokenRing
    (resolve : String → Except String KeyspaceMetadata)
    (meta : ClusterMetadata) (ks : String) :
    (updateReplicasWith resolve meta ks).tokenRing = meta.tokenRing := rfl

theorem updateReplicasWith_lookup_ne
    (resolve : String → Except String KeyspaceMetadata)
    (meta : ClusterMetadata) (ks key : String) (h : key ≠ ks) :
    lookupKs (updateReplicasWith resolve meta ks).replicas key =
      lookupKs meta.replicas key := by
  have hfil := lookupKs_dropKs_ne meta.replicas ks key h
  have hne : ¬ ks = key := fun hk => h hk.symm
  unfold updateReplicasWith
  cases hres : resolve ks with
  | error e => simpa [hres] using hfil
  | ok km =>
    cases hstrat : getStrategy km with
    | none => simpa [hres, hstrat] using hfil
    | some strat =>
      cases hring : meta.tokenRing with
      | none => simpa [hres, hstrat, hring] using hfil
      | some ring => simpa [hres, hstrat, hring, lookupKs, hne] using hfil

theorem updateReplicasWith_lookup_self_none
    (resolve : String → Except String KeyspaceMetadata)
    (meta : ClusterMetadata) (ks : String)
    (hfail : (∃ e, resolve ks = Except.error e) ∨
             ∃ km, resolve ks = Except.ok km ∧ getStrategy km = none) :
    lookupKs (updateReplicasWith resolve meta ks).replicas ks = none := by
  have hfil := lookupKs_dropKs_self meta.replicas ks
  unfold updateReplicasWith
  rcases hfail with ⟨e, he⟩ | ⟨km, hkm, hstrat⟩
  · simpa [he] using hfil
  · simpa [hkm, hstrat] using hfil

theorem resetTokenRing_error (meta : ClusterMetadata) (p : String)
    (hs : List HostInfo) (h : ∃ e, newTokenRing p hs = Except.error e) :
    meta.resetTokenRing p hs = meta := by
  obtain ⟨e, he⟩ := h
  by_cases hp : p = ""
  · simp [ClusterMetadata.resetTokenRing, hp]
  · simp [ClusterMetadata.resetTokenRing, hp, he]

/-! Equation lemmas describing each operation path of the manager. -/

theorem keyspaceChanged_eq (m : clusterMetadataManager)
    (resolve : String → Except String KeyspaceMetadata) (ks : String)
    (hres : m.getKeyspaceMetadata = some resolve) :
    m.keyspaceChanged ks =
      ({ m with heap := m.heap ++ [updateReplicasWith resolve m.workingCopy ks],
                metadata := some m.heap.length }, none) := by
  simp [clusterMetadataManager.keyspaceChanged,
    clusterMetadataManager.getMetadataForUpdate, hres, getAppendLen, setAppendLen]

theorem keyspaceChanged_panic (m : clusterMetadataManager) (ks : String)
    (hres : m.getKeyspaceMetadata = none) :
    m.keyspaceChanged ks =
      ({ m with heap := m.heap ++ [m.workingCopy] }, some nilFuncPanic) := by
  simp [clusterMetadataManager.keyspaceChanged,
    clusterMetadataManager.getMetadataForUpdate, hres]

theorem rebuildAndStore_eq (m : clusterMetadataManager)
    (resolve : String → Except String KeyspaceMetadata) (ksName : String)
    (hres : m.getKeyspaceMetadata = some resolve)
    (hname : m.getKeyspaceName = some ksName) :
    m.rebuildAndStore =
      ({ m with
          heap := m.heap ++ [updateReplicasWith resolve
            (m.workingCopy.resetTokenRing m.partitioner m.hosts) ksName],
          metadata := some m.heap.length }, none) := by
  simp [clusterMetadataManager.rebuildAndStore,
    clusterMetadataManager.getMetadataForUpdate, hres, hname, getAppendLen,
    setAppendLen]

theorem rebuildAndStore_panic (m : clusterMetadataManager)
    (hname : m.getKeyspaceName = none) :
    m.rebuildAndStore =
      ({ m with
          heap := m.heap ++ [m.workingCopy.resetTokenRing m.partitioner m.hosts] },
       some nilFuncPanic) := by
  simp [clusterMetadataManager.rebuildAndStore,
    clusterMetadataManager.getMetadataForUpdate, hname, getAppendLen,
    setAppendLen]

theorem readSnapshot_publish (m : clusterMetadataManager) (x : ClusterMetadata) :
    clusterMetadataManager.readSnapshot
      { m with heap := m.heap ++ [x], metadata := some m.heap.length } = some x := by
  simp [clusterMetadataManager.readSnapshot, getAppendLen]

/-! Heap stability: no operation writes to an already-allocated cell;
it either leaves the heap alone or appends one fresh cell (possibly
rewriting only that fresh cell). -/

theorem rebuildAndStore_heap_get (m : clusterMetadataManager) (i : Nat)
    (h : i < m.heap.length) :
    ((m.rebuildAndStore).1).heap[i]? = m.heap[i]? := by
  cases hname : m.getKeyspaceName with
  | none =>
    rw [rebuildAndStore_panic m hname]
    exact getAppendLt m.heap _ i h
  | some ksName =>
    cases hres : m.getKeyspaceMetadata with
    | none =>
      simp only [clusterMetadataManager.rebuildAndStore,
        clusterMetadataManager.getMetadataForUpdate, hname, hres, setAppendLen]
      exact getAppendLt m.heap _ i h
    | some resolve =>
      rw [rebuildAndStore_eq m resolve ksName hres hname]
      exact getAppendLt m.heap _ i h

theorem rebuildAndStore_heap_len (m : clusterMetadataManager) :
    m.heap.length ≤ ((m.rebuildAndStore).1).heap.length := by
  cases hname : m.getKeyspaceName with
  | none =>
    rw [rebuildAndStore_panic m hname]
    simp
  | some ksName =>
    cases hres : m.getKeyspaceMetadata with
    | none =>
      simp [clusterMetadataManager.rebuildAndStore,
        clusterMetadataManager.getMetadataForUpdate, hname, hres, setAppendLen]
    | some resolve =>
      rw [rebuildAndStore_eq m resolve ksName hres hname]
      simp

theorem run_heap_get (op : MgrOp) (m : clusterMetadataManager) (i : Nat)
    (h : i < m.heap.length) :
    ((op.run m).1).heap[i]? = m.heap[i]? := by
  cases op with
  | opInit resolve ksName =>
    cases hres : m.getKeyspaceMetadata <;>
      simp [MgrOp.run, clusterMetadataManager.init, hres]
  | opKeyspaceChanged ks =>
    cases hres : m.getKeyspaceMetadata with
    | none =>
      rw [MgrOp.run, keyspaceChanged_panic m ks hres]
      exact getAppendLt m.heap _ i h
    | some resolve =>
      rw [MgrOp.run, keyspaceChanged_eq m resolve ks hres]
      exact getAppendLt m.heap _ i h
  | opSetPartitioner p =>
    by_cases hp : m.partitioner = p
    · simp [MgrOp.run, clusterMetadataManager.setPartitioner, hp]
    · have := rebuildAndStore_heap_get { m with partitioner := p } i h
      simpa [MgrOp.run, clusterMetadataManager.setPartitioner, hp] using this
  | opAddHost host =>
    by_cases hc : (cowHostList.add m.hosts host).2 = true
    · have := rebuildAndStore_heap_get
        { m with hosts := (cowHostList.add m.hosts host).1 } i h
      simpa [MgrOp.run, clusterMetadataManager.addHost, hc] using this
    · simp [MgrOp.run, clusterMetadataManager.addHost, hc]
  | opAddHosts hs =>
    have := rebuildAndStore_heap_get
      { m with hosts := hs.foldl (fun acc h => (cowHostList.add acc h).1) m.hosts } i h
    simpa [MgrOp.run, clusterMetadataManager.addHosts] using this
  | opRemoveHost host =>
    by_cases hc : (cowHostList.remove m.hosts host.connectAddress).2 = true
    · have := rebuildAndStore_heap_get
        { m with hosts := (cowHostList.remove m.hosts host.connectAddress).1 } i h
      simpa [MgrOp.run, clusterMetadataManager.removeHost, hc] using this
    · simp [MgrOp.run, clusterMetadataManager.removeHost, hc]

theorem run_heap_len (op : MgrOp) (m : clusterMetadataManager) :
    m.heap.length ≤ ((op.run m).1).heap.length := by
  cases op with
  | opInit resolve ksName =>
    cases hres : m.getKeyspaceMetadata <;>
      simp [MgrOp.run, clusterMetadataManager.init, hres]
  | opKeyspaceChanged ks =>
    cases hres : m.getKeyspaceMetadata with
    | none => rw [MgrOp.run, keyspaceChanged_panic m ks hres]; simp
    | some resolve => rw [MgrOp.run, keyspaceChanged_eq m resolve ks hres]; simp
  | opSetPartitioner p =>
    by_cases hp : m.partitioner = p
    · simp [MgrOp.run, clusterMetadataManager.setPartitioner, hp]
    · have := rebuildAndStore_heap_len { m with partitioner := p }
      simpa [MgrOp.run, clusterMetadataManager.setPartitioner, hp] using this
  | opAddHost host =>
    by_cases hc : (cowHostList.add m.hosts host).2 = true
    · have := rebuildAndStore_heap_len
        { m with hosts := (cowHostList.add m.hosts host).1 }
      simpa [MgrOp.run, clusterMetadataManager.addHost, hc] using this
    · simp [MgrOp.run, clusterMetadataManager.addHost, hc]
  | opAddHosts hs =>
    have := rebuildAndStore_heap_len
      { m with hosts := hs.foldl (fun acc h => (cowHostList.add acc h).1) m.hosts }
    simpa [MgrOp.run, clusterMetadataManager.addHosts] using this
  | opRemoveHost host =>
    by_cases hc : (cowHostList.remove m.hosts host.connectAddress).2 = true
    · have := rebuildAndStore_heap_len
        { m with hosts := (cowHostList.remove m.hosts host.connectAddress).1 }
      simpa [MgrOp.run, clusterMetadataManager.removeHost, hc] using this
    · simp [MgrOp.run, clusterMetadataManager.removeHost, hc]

theorem runOps_heap_get (ops : List MgrOp) (m : clusterMetadataManager) (i : Nat)
    (h : i < m.heap.length) :
    ((runOps ops m).1).heap[i]? = m.heap[i]? := by
  induction ops generalizing m with
  | nil => rfl
  | cons op rest ih =>
    cases hrun : op.run m with
    | mk m1 e =>
      have h1 : i < m1.heap.length :=
        lt_of_lt_of_le h (by simpa [hrun] using run_heap_len op m)
      have hget : m1.heap[i]? = m.heap[i]? := by
        simpa [hrun] using run_heap_get op m i h
      cases e with
      | none =>
        simp only [runOps, hrun]
        rw [ih m1 h1, hget]
      | some msg => simpa [runOps, hrun] using hget

/-! The publish invariant: the metadata slot is nil exactly while no
snapshot has ever been stored, and otherwise points at the most
recently allocated snapshot. -/

def publishedLatest (m : clusterMetadataManager) : Prop :=
  (m.metadata = none → m.heap = []) ∧
  (∀ a, m.metadata = some a → a + 1 = m.heap.length)

theorem rebuildAndStore_publishedLatest (m m1 : clusterMetadataManager)
    (hrun : m.rebuildAndStore = (m1, none)) : publishedLatest m1 := by
  cases hname : m.getKeyspaceName with
  | none =>
    rw [rebuildAndStore_panic m hname] at hrun
    injection hrun with h1 h2
    exact Option.noConfusion h2
  | some ksName =>
    cases hres : m.getKeyspaceMetadata with
    | none =>
      simp only [clusterMetadataManager.rebuildAndStore,
        clusterMetadataManager.getMetadataForUpdate, hname, hres] at hrun
      injection hrun with h1 h2
      exact Option.noConfusion h2
    | some resolve =>
      rw [rebuildAndStore_eq m resolve ksName hres hname] at hrun
      injection hrun with h1 h2
      constructor
      · intro hmeta
        rw [← h1] at hmeta
        simp at hmeta
      · intro a ha
        rw [← h1] at ha ⊢
        simp at ha ⊢
        omega

theorem run_publishedLatest (op : MgrOp) (m m1 : clusterMetadataManager)
    (hrun : op.run m = (m1, none)) (hm : publishedLatest m) :
    publishedLatest m1 := by
  cases op with
  | opInit resolve ksName =>
    cases hres : m.getKeyspaceMetadata with
    | some f =>
      simp [MgrOp.run, clusterMetadataManager.init, hres] at hrun
    | none =>
      simp only [MgrOp.run, clusterMetadataManager.init, hres] at hrun
      injection hrun with h1 h2
      rw [← h1]
      exact hm
  | opKeyspaceChanged ks =>
    cases hres : m.getKeyspaceMetadata with
    | none =>
      rw [MgrOp.run, keyspaceChanged_panic m ks hres] at hrun
      injection hrun with h1 h2
      exact Option.noConfusion h2
    | some resolve =>
      rw [MgrOp.run, keyspaceChanged_eq m resolve ks hres] at hrun
      injection hrun with h1 h2
      constructor
      · intro hmeta
        rw [← h1] at hmeta
        simp at hmeta
      · intro a ha
        rw [← h1] at ha ⊢
        simp at ha ⊢
        omega
  | opSetPartitioner p =>
    by_cases hp : m.partitioner = p
    · simp only [MgrOp.run, clusterMetadataManager.setPartitioner, if_pos hp] at hrun
      injection hrun with h1 h2
      rw [← h1]
      exact hm
    · simp only [MgrOp.run, clusterMetadataManager.setPartitioner, if_neg hp] at hrun
      exact rebuildAndStore_publishedLatest _ _ hrun
  | opAddHost host =>
    by_cases hc : (cowHostList.add m.hosts host).2 = true
    · simp only [MgrOp.run, clusterMetadataManager.addHost, hc, if_true] at hrun
      exact rebuildAndStore_publishedLatest _ _ hrun
    · simp only [MgrOp.run, clusterMetadataManager.addHost,
        Bool.not_eq_true] at hc
      simp only [MgrOp.run, clusterMetadataManager.addHost, hc,
        Bool.false_eq_true, if_false] at hrun
      injection hrun with h1 h2
      rw [← h1]
      exact hm
  | opAddHosts hs =>
    simp only [MgrOp.run, clusterMetadataManager.addHosts] at hrun
    exact rebuildAndStore_publishedLatest _ _ hrun
  | opRemoveHost host =>
    by_cases hc : (cowHostList.remove m.hosts host.connectAddress).2 = true
    · simp only [MgrOp.run, clusterMetadataManager.removeHost, hc, if_true] at hrun
      exact rebuildAndStore_publishedLatest _ _ hrun
    · simp only [Bool.not_eq_true] at hc
      simp only [MgrOp.run, clusterMetadataManager.removeHost, hc,
        Bool.false_eq_true, if_false] at hrun
      injection hrun with h1 h2
      rw [← h1]
      exact hm

theorem runOps_publishedLatest (ops : List MgrOp) (m m1 : clusterMetadataManager)
    (hrun : runOps ops m = (m1, none)) (hm : publishedLatest m) :
    publishedLatest m1 := by
  induction ops generalizing m with
  | nil =>
    simp only [runOps] at hrun
    injection hrun with h1 h2
    rw [← h1]
    exact hm
  | cons op rest ih =>
    cases h1 : op.run m with
    | mk ma e =>
      cases e with
      | none =>
        have hstep := run_publishedLatest op m ma h1 hm
        have hrest : runOps rest ma = (m1, none) := by
          simpa [runOps, h1] using hrun
        exact ih ma hrest hstep
      | some msg =>
        rw [runOps, h1] at hrun
        injection hrun with ha hb
        exact Option.noConfusion hb

/-! Concrete fixtures used by witness theorems. -/

/-- A concrete resolver whose schema lookup fails for every keyspace. -/
def failRes : String → Except String KeyspaceMetadata :=
  fun _ => Except.error "keyspace metadata not available"

def hostA : HostInfo :=
  { connectAddress := "10.0.0.1", datacenter := "dc1", tokens := [0, 50] }

def hostB : HostInfo :=
  { connectAddress := "10.0.0.2", datacenter := "dc1", tokens := [25, 75] }

/-- A published snapshot holding replica entries for ksA and ksB. -/
def snapPub : ClusterMetadata :=
  { replicas := [("ksA", []), ("ksB", [⟨0, [hostA]⟩])], tokenRing := none }

/-- An initialized manager with snapPub published. -/
def mgrPub : clusterMetadataManager :=
  { getKeyspaceMetadata := some failRes, getKeyspaceName := some "ksA",
    hosts := [hostA], partitioner := "", heap := [snapPub], metadata := some 0 }

/-- An uninitialized manager that already carries one registered host. -/
def mgrRaw : clusterMetadataManager :=
  { getKeyspaceMetadata := none, getKeyspaceName := none, hosts := [hostA],
    partitioner := "", heap := [], metadata := none }

/-! The claims. -/

/-- C1: once a snapshot has been published, no later operation
sequence mutates the heap cell it lives in — every mutating operation
writes only the fresh cell allocated by getMetadataForUpdate — so a
reader that held the published reference still observes exactly the
ring and replica map the snapshot held at publish time, even after
later addHost, removeHost, setPartitioner or keyspaceChanged calls
publish new snapshots. -/
theorem c1_published_snapshot_immutable (ops : List MgrOp)
    (m : clusterMetadataManager) (a : Nat) (snap : ClusterMetadata)
    (_hpub : m.getMetadataReadOnly = some a)
    (hsnap : m.heap[a]? = some snap) :
    ((runOps ops m).1).heap[a]? = some snap := by
  rw [runOps_heap_get ops m a (getSomeLt hsnap)]
  exact hsnap

theorem c1_witness :
    mgrPub.getMetadataReadOnly = some 0 ∧ mgrPub.heap[0]? = some snapPub ∧
    ((runOps [MgrOp.opAddHost hostB, MgrOp.opKeyspaceChanged "ksB"] mgrPub).1).heap[0]? =
      some snapPub :=
  ⟨rfl, rfl,
    c1_published_snapshot_immutable
      [MgrOp.opAddHost hostB, MgrOp.opKeyspaceChanged "ksB"] mgrPub 0 snapPub rfl rfl⟩

/-- C2: keyspaceChanged publishes a snapshot whose tokenRing is the one
of the previously published snapshot, and every other keyspace that had
an entry in the previous replica map keeps exactly the same value; only
the target keyspace entry is recomputed. -/
theorem c2_keyspaceChanged_scoped (m : clusterMetadataManager)
    (resolve : String → Except String KeyspaceMetadata) (ks1 : String)
    (prev : ClusterMetadata)
    (hres : m.getKeyspaceMetadata = some resolve)
    (hprev : m.readSnapshot = some prev) :
    ∃ m1, m.keyspaceChanged ks1 = (m1, none) ∧
      ∃ cur, m1.readSnapshot = some cur ∧
        cur.tokenRing = prev.tokenRing ∧
        ∀ ks2, ks2 ≠ ks1 → ∀ v, lookupKs prev.replicas ks2 = some v →
          lookupKs cur.replicas ks2 = some v := by
  have hwc : m.workingCopy = prev := by
    simp [clusterMetadataManager.workingCopy, hprev]
  rw [keyspaceChanged_eq m resolve ks1 hres, hwc]
  refine ⟨_, rfl, updateReplicasWith resolve prev ks1,
    readSnapshot_publish m _, updateReplicasWith_tokenRing resolve prev ks1, ?_⟩
  intro ks2 h2 v hv
  rw [updateReplicasWith_lookup_ne resolve prev ks1 ks2 h2]
  exact hv

theorem c2_witness :
    mgrPub.getKeyspaceMetadata = some failRes ∧
    mgrPub.readSnapshot = some snapPub ∧
    (∃ m1, mgrPub.keyspaceChanged "ksA" = (m1, none) ∧
      ∃ cur, m1.readSnapshot = some cur ∧
        cur.tokenRing = snapPub.tokenRing ∧
        ∀ ks2, ks2 ≠ "ksA" → ∀ v, lookupKs snapPub.replicas ks2 = some v →
          lookupKs cur.replicas ks2 = some v) :=
  ⟨rfl, rfl, c2_keyspaceChanged_scoped mgrPub failRes "ksA" snapPub rfl rfl⟩

/-- C3: when resolution fails for the target keyspace — the resolver
errors or getStrategy yields no strategy — updateReplicas leaves no
entry for that keyspace in the new mapping, carries every other
keyspace entry over and keeps the ring, and the publish still happens
without an error: keyspaceChanged completes, stores the fresh cell and
points the slot at it. -/
theorem c3_resolution_failure_containment (m : clusterMetadataManager)
    (resolve : String → Except String KeyspaceMetadata) (ks : String)
    (hres : m.getKeyspaceMetadata = some resolve)
    (hfail : (∃ e, resolve ks = Except.error e) ∨
             ∃ km, resolve ks = Except.ok km ∧ getStrategy km = none) :
    (∀ meta : ClusterMetadata,
       lookupKs (updateReplicasWith resolve meta ks).replicas ks = none ∧
       (∀ ks2, ks2 ≠ ks → lookupKs (updateReplicasWith resolve meta ks).replicas ks2 =
          lookupKs meta.replicas ks2) ∧
       (updateReplicasWith resolve meta ks).tokenRing = meta.tokenRing) ∧
    ∃ m1, m.keyspaceChanged ks = (m1, none) ∧
      m1.getMetadataReadOnly = some m.heap.length ∧
      m1.readSnapshot = some (updateReplicasWith resolve m.workingCopy ks) := by
  constructor
  · intro meta
    exact ⟨updateReplicasWith_lookup_self_none resolve meta ks hfail,
      fun ks2 h2 => updateReplicasWith_lookup_ne resolve meta ks ks2 h2,
      updateReplicasWith_tokenRing resolve meta ks⟩
  · rw [keyspaceChanged_eq m resolve ks hres]
    exact ⟨_, rfl, rfl, readSnapshot_publish m _⟩

theorem c3_witness :
    mgrPub.getKeyspaceMetadata = some failRes ∧
    failRes "ksC" = Except.error "keyspace metadata not available" ∧
    ((∀ meta : ClusterMetadata,
       lookupKs (updateReplicasWith failRes meta "ksC").replicas "ksC" = none ∧
       (∀ ks2, ks2 ≠ "ksC" → lookupKs (updateReplicasWith failRes meta "ksC").replicas ks2 =
          lookupKs meta.replicas ks2) ∧
       (updateReplicasWith failRes meta "ksC").tokenRing = meta.tokenRing) ∧
    ∃ m1, mgrPub.keyspaceChanged "ksC" = (m1, none) ∧
      m1.getMetadataReadOnly = some mgrPub.heap.length ∧
      m1.readSnapshot = some (updateReplicasWith failRes mgrPub.workingCopy "ksC")) :=
  ⟨rfl, rfl,
    c3_resolution_failure_containment mgrPub failRes "ksC" rfl
      (Or.inl ⟨"keyspace metadata not available", rfl⟩)⟩

/-- C8: calling init on an already-initialized manager hits the fatal
contract-violation path every time: it panics with the sharing message
and returns without touching the existing bindings (the state component
is the input manager unchanged). -/
theorem c8_reinit_panics (m : clusterMetadataManager)
    (f resolve2 : String → Except String KeyspaceMetadata) (ks2 : String)
    (hinit : m.getKeyspaceMetadata = some f) :
    m.init resolve2 ks2 = (m, some reInitPanic) := by
  simp [clusterMetadataManager.init, hinit]

theorem c8_witness :
    mgrPub.getKeyspaceMetadata = some failRes ∧
    mgrPub.init failRes "other" = (mgrPub, some reInitPanic) :=
  ⟨rfl, c8_reinit_panics mgrPub failRes failRes "other" rfl⟩

/-- C10: if init has not been called, every mutating operation that
reaches the replica-recomputation step panics: keyspaceChanged panics
calling the nil keyspace resolver inside updateReplicas, and the
ring-rebuilding operations panic calling the nil keyspace-name closure
that feeds updateReplicas; so init-has-been-called is an implicit
precondition of all mutating operations. -/
theorem c10_mutating_needs_init (m : clusterMetadataManager)
    (h1 : m.getKeyspaceMetadata = none) (h2 : m.getKeyspaceName = none)
    (ks p : String) (hp : m.partitioner ≠ p)
    (hostNew hostOld : HostInfo) (hs : List HostInfo)
    (hfresh : m.hosts.any (fun x => x.connectAddress == hostNew.connectAddress) = false)
    (hknown : m.hosts.any (fun x => x.connectAddress == hostOld.connectAddress) = true) :
    (m.keyspaceChanged ks).2 = some nilFuncPanic ∧
    (m.setPartitioner p).2 = some nilFuncPanic ∧
    (m.addHost hostNew).2 = some nilFuncPanic ∧
    (m.addHosts hs).2 = some nilFuncPanic ∧
    (m.removeHost hostOld).2 = some nilFuncPanic := by
  refine ⟨?_, ?_, ?_, ?_, ?_⟩
  · rw [keyspaceChanged_panic m ks h1]
  · simp only [clusterMetadataManager.setPartitioner, if_neg hp]
    rw [rebuildAndStore_panic { m with partitioner := p } h2]
  · simp only [clusterMetadataManager.addHost, cowHostList.add, hfresh,
      Bool.false_eq_true, if_false, if_true]
    rw [rebuildAndStore_panic { m with hosts := m.hosts ++ [hostNew] } h2]
  · simp only [clusterMetadataManager.addHosts]
    rw [rebuildAndStore_panic
      { m with hosts := hs.foldl (fun acc h => (cowHostList.add acc h).1) m.hosts } h2]
  · simp only [clusterMetadataManager.removeHost, cowHostList.remove, hknown, if_true]
    rw [rebuildAndStore_panic
      { m with hosts := m.hosts.filter (fun x => x.connectAddress != hostOld.connectAddress) } h2]

theorem c10_witness :
    mgrRaw.getKeyspaceMetadata = none ∧ mgrRaw.getKeyspaceName = none ∧
    mgrRaw.partitioner ≠ "Murmur3Partitioner" ∧
    mgrRaw.hosts.any (fun x => x.connectAddress == hostB.connectAddress) = false ∧
    mgrRaw.hosts.any (fun x => x.connectAddress == hostA.connectAddress) = true ∧
    ((mgrRaw.keyspaceChanged "ksA").2 = some nilFuncPanic ∧
     (mgrRaw.setPartitioner "Murmur3Partitioner").2 = some nilFuncPanic ∧
     (mgrRaw.addHost hostB).2 = some nilFuncPanic ∧
     (mgrRaw.addHosts []).2 = some nilFuncPanic ∧
     (mgrRaw.removeHost hostA).2 = some nilFuncPanic) :=
  ⟨rfl, rfl, by decide, by decide, by decide,
    c10_mutating_needs_init mgrRaw rfl rfl "ksA" "Murmur3Partitioner" (by decide)
      hostB hostA [] (by decide) (by decide)⟩

/-- Replacing only the hosts field leaves the working copy unchanged:
it depends on the heap and the metadata slot alone. -/
theorem workingCopy_set_hosts (m : clusterMetadataManager) (hs : cowHostList) :
    clusterMetadataManager.workingCopy { m with hosts := hs } = m.workingCopy := rfl

/-- addHost on a host whose address is not yet registered takes the
rebuild-and-publish path with the extended registry. -/
theorem addHost_fresh_eq (m : clusterMetadataManager) (host : HostInfo)
    (hfresh : m.hosts.any (fun x => x.connectAddress == host.connectAddress) = false) :
    m.addHost host =
      clusterMetadataManager.rebuildAndStore { m with hosts := m.hosts ++ [host] } := by
  simp [clusterMetadataManager.addHost, cowHostList.add, hfresh]

/-- C5: adding a fresh host publishes exactly once, and a second
addHost of the same host is a no-op: the host registry rejects the
duplicate address, nothing is stored, and the state — in particular the
published snapshot reference read by getMetadataReadOnly — is exactly
the state after the first call. -/
theorem c5_addHost_idempotent (m : clusterMetadataManager)
    (resolve : String → Except String KeyspaceMetadata) (ksName : String)
    (host : HostInfo)
    (hres : m.getKeyspaceMetadata = some resolve)
    (hname : m.getKeyspaceName = some ksName)
    (hfresh : m.hosts.any (fun x => x.connectAddress == host.connectAddress) = false) :
    ∃ m1, m.addHost host = (m1, none) ∧
      m1.getMetadataReadOnly = some m.heap.length ∧
      m1.heap.length = m.heap.length + 1 ∧
      m1.addHost host = (m1, none) := by
  rw [addHost_fresh_eq m host hfresh,
      rebuildAndStore_eq { m with hosts := m.hosts ++ [host] } resolve ksName hres hname]
  refine ⟨_, rfl, rfl, by simp, ?_⟩
  simp [clusterMetadataManager.addHost, cowHostList.add]

theorem c5_witness :
    mgrPub.getKeyspaceMetadata = some failRes ∧
    mgrPub.getKeyspaceName = some "ksA" ∧
    mgrPub.hosts.any (fun x => x.connectAddress == hostB.connectAddress) = false ∧
    (∃ m1, mgrPub.addHost hostB = (m1, none) ∧
      m1.getMetadataReadOnly = some mgrPub.heap.length ∧
      m1.heap.length = mgrPub.heap.length + 1 ∧
      m1.addHost hostB = (m1, none)) :=
  ⟨rfl, rfl, by decide,
    c5_addHost_idempotent mgrPub failRes "ksA" hostB rfl rfl (by decide)⟩

/-- C6: when rebuilding the token ring fails, the working snapshot
keeps whatever ring it already carried (resetTokenRing is the
identity), and the publish still proceeds with the recomputed replica
map: the published snapshot is exactly the replica update of the old
working copy, ring untouched. -/
theorem c6_ring_build_failure_retains_ring (m : clusterMetadataManager)
    (resolve : String → Except String KeyspaceMetadata) (ksName : String)
    (host : HostInfo)
    (hres : m.getKeyspaceMetadata = some resolve)
    (hname : m.getKeyspaceName = some ksName)
    (hfresh : m.hosts.any (fun x => x.connectAddress == host.connectAddress) = false)
    (herr : ∃ e, newTokenRing m.partitioner (m.hosts ++ [host]) = Except.error e) :
    ∃ m1, m.addHost host = (m1, none) ∧
      m1.getMetadataReadOnly = some m.heap.length ∧
      m1.readSnapshot = some (updateReplicasWith resolve m.workingCopy ksName) ∧
      (updateReplicasWith resolve m.workingCopy ksName).tokenRing =
        m.workingCopy.tokenRing := by
  rw [addHost_fresh_eq m host hfresh,
      rebuildAndStore_eq { m with hosts := m.hosts ++ [host] } resolve ksName hres hname]
  simp only [workingCopy_set_hosts]
  rw [resetTokenRing_error m.workingCopy m.partitioner (m.hosts ++ [host]) herr]
  exact ⟨_, rfl, rfl,
    readSnapshot_publish { m with hosts := m.hosts ++ [host] } _,
    updateReplicasWith_tokenRing resolve m.workingCopy ksName⟩

theorem c6_witness :
    mgrPub.getKeyspaceMetadata = some failRes ∧
    mgrPub.getKeyspaceName = some "ksA" ∧
    mgrPub.hosts.any (fun x => x.connectAddress == hostB.connectAddress) = false ∧
    newTokenRing mgrPub.partitioner (mgrPub.hosts ++ [hostB]) =
      Except.error "unknown partitioner" ∧
    (∃ m1, mgrPub.addHost hostB = (m1, none) ∧
      m1.getMetadataReadOnly = some mgrPub.heap.length ∧
      m1.readSnapshot = some (updateReplicasWith failRes mgrPub.workingCopy "ksA") ∧
      (updateReplicasWith failRes mgrPub.workingCopy "ksA").tokenRing =
        mgrPub.workingCopy.tokenRing) :=
  ⟨rfl, rfl, by decide, rfl,
    c6_ring_build_failure_retains_ring mgrPub failRes "ksA" hostB rfl rfl (by decide)
      ⟨"unknown partitioner", rfl⟩⟩

/-- C7: addHosts registers every given host and then unconditionally
rebuilds the ring, recomputes the replica map for the active keyspace
and publishes exactly one new snapshot — also when the host list is
empty or every host was already known. -/
theorem c7_addHosts_unconditional (m : clusterMetadataManager)
    (resolve : String → Except String KeyspaceMetadata) (ksName : String)
    (hs : List HostInfo)
    (hres : m.getKeyspaceMetadata = some resolve)
    (hname : m.getKeyspaceName = some ksName) :
    ∃ m1, m.addHosts hs = (m1, none) ∧
      m1.hosts = hs.foldl (fun acc h => (cowHostList.add acc h).1) m.hosts ∧
      m1.heap.length = m.heap.length + 1 ∧
      m1.getMetadataReadOnly = some m.heap.length ∧
      m1.readSnapshot = some (updateReplicasWith resolve
        (m.workingCopy.resetTokenRing m.partitioner
          (hs.foldl (fun acc h => (cowHostList.add acc h).1) m.hosts)) ksName) := by
  simp only [clusterMetadataManager.addHosts]
  rw [rebuildAndStore_eq
    { m with hosts := hs.foldl (fun acc h => (cowHostList.add acc h).1) m.hosts }
    resolve ksName hres hname]
  simp only [workingCopy_set_hosts]
  exact ⟨_, rfl, rfl, by simp, rfl,
    readSnapshot_publish
      { m with hosts := hs.foldl (fun acc h => (cowHostList.add acc h).1) m.hosts } _⟩

theorem c7_witness :
    mgrPub.getKeyspaceMetadata = some failRes ∧
    mgrPub.getKeyspaceName = some "ksA" ∧
    (∃ m1, mgrPub.addHosts [] = (m1, none) ∧
      m1.hosts = List.foldl (fun acc h => (cowHostList.add acc h).1) mgrPub.hosts [] ∧
      m1.heap.length = mgrPub.heap.length + 1 ∧
      m1.getMetadataReadOnly = some mgrPub.heap.length ∧
      m1.readSnapshot = some (updateReplicasWith failRes
        (mgrPub.workingCopy.resetTokenRing mgrPub.partitioner
          (List.foldl (fun acc h => (cowHostList.add acc h).1) mgrPub.hosts [])) "ksA")) :=
  ⟨rfl, rfl, c7_addHosts_unconditional mgrPub failRes "ksA" [] rfl rfl⟩

/-! C4 fixtures: a published snapshot that already has a replica-map
entry for ks3, and a resolver that fails for every keyspace. -/

def snapKs3 : ClusterMetadata :=
  { replicas := [("ks3", [⟨0, [hostA]⟩])], tokenRing := none }

def mgrKs3 : clusterMetadataManager :=
  { getKeyspaceMetadata := some failRes, getKeyspaceName := some "ks3",
    hosts := [hostA], partitioner := "", heap := [snapKs3], metadata := some 0 }

/-- C4 counterexample: the previously published snapshot maps ks3 to a
computed replica map, the resolver fails for ks3, keyspaceChanged ks3
completes and publishes — but the published snapshot has NO entry for
ks3 at all: the failing keyspace does not keep its previous replica
map, contrary to the claim. -/
theorem c4_counterexample :
    lookupKs snapKs3.replicas "ks3" = some [⟨0, [hostA]⟩] ∧
    (mgrKs3.keyspaceChanged "ks3").2 = none ∧
    ((mgrKs3.keyspaceChanged "ks3").1).readSnapshot =
      some { replicas := [], tokenRing := none } ∧
    (((mgrKs3.keyspaceChanged "ks3").1).readSnapshot.map
        (fun cur => lookupKs cur.replicas "ks3")) = some none := by
  refine ⟨rfl, ?_, ?_, ?_⟩ <;> decide

/-- C4 amended: on a degraded-but-recoverable error during a mutating
operation the ring is left at its previous value (ring-build failure
keeps the old ring) and the failing keyspace is OMITTED from the new
replica mapping — even when it had a previously computed replica map —
while the unrelated state (host registry, the other keyspace entries)
still updates and the publish proceeds. -/
theorem c4_amended_degraded_errors (m : clusterMetadataManager)
    (resolve : String → Except String KeyspaceMetadata) (ksName : String)
    (host : HostInfo)
    (hres : m.getKeyspaceMetadata = some resolve)
    (hname : m.getKeyspaceName = some ksName)
    (hfresh : m.hosts.any (fun x => x.connectAddress == host.connectAddress) = false)
    (herr : ∃ e, newTokenRing m.partitioner (m.hosts ++ [host]) = Except.error e)
    (hfail : (∃ e, resolve ksName = Except.error e) ∨
             ∃ km, resolve ksName = Except.ok km ∧ getStrategy km = none) :
    ∃ m1, m.addHost host = (m1, none) ∧
      m1.hosts = m.hosts ++ [host] ∧
      m1.getMetadataReadOnly = some m.heap.length ∧
      ∃ cur, m1.readSnapshot = some cur ∧
        cur.tokenRing = m.workingCopy.tokenRing ∧
        lookupKs cur.replicas ksName = none ∧
        ∀ ks2, ks2 ≠ ksName →
          lookupKs cur.replicas ks2 = lookupKs m.workingCopy.replicas ks2 := by
  rw [addHost_fresh_eq m host hfresh,
      rebuildAndStore_eq { m with hosts := m.hosts ++ [host] } resolve ksName hres hname]
  simp only [workingCopy_set_hosts]
  rw [resetTokenRing_error m.workingCopy m.partitioner (m.hosts ++ [host]) herr]
  exact ⟨_, rfl, rfl, rfl, updateReplicasWith resolve m.workingCopy ksName,
    readSnapshot_publish { m with hosts := m.hosts ++ [host] } _,
    updateReplicasWith_tokenRing resolve m.workingCopy ksName,
    updateReplicasWith_lookup_self_none resolve m.workingCopy ksName hfail,
    fun ks2 h2 => updateReplicasWith_lookup_ne resolve m.workingCopy ksName ks2 h2⟩

theorem c4_witness :
    mgrKs3.getKeyspaceMetadata = some failRes ∧
    mgrKs3.getKeyspaceName = some "ks3" ∧
    mgrKs3.hosts.any (fun x => x.connectAddress == hostB.connectAddress) = false ∧
    newTokenRing mgrKs3.partitioner (mgrKs3.hosts ++ [hostB]) =
      Except.error "unknown partitioner" ∧
    failRes "ks3" = Except.error "keyspace metadata not available" ∧
    (∃ m1, mgrKs3.addHost hostB = (m1, none) ∧
      m1.hosts = mgrKs3.hosts ++ [hostB] ∧
      m1.getMetadataReadOnly = some mgrKs3.heap.length ∧
      ∃ cur, m1.readSnapshot = some cur ∧
        cur.tokenRing = mgrKs3.workingCopy.tokenRing ∧
        lookupKs cur.replicas "ks3" = none ∧
        ∀ ks2, ks2 ≠ "ks3" →
          lookupKs cur.replicas ks2 = lookupKs mgrKs3.workingCopy.replicas ks2) :=
  ⟨rfl, rfl, by decide, rfl, rfl,
    c4_amended_degraded_errors mgrKs3 failRes "ks3" hostB rfl rfl (by decide)
      ⟨"unknown partitioner", rfl⟩
      (Or.inl ⟨"keyspace metadata not available", rfl⟩)⟩

/-! C9: counterexample and amended statement. -/

/-- The manager obtained by init followed by addHosts with the empty
list: the partitioner is still unknown and no host was ever
registered. -/
def mgrNoHosts : clusterMetadataManager :=
  (((initialManager.init failRes "ks0").1).addHosts []).1

/-- C9 counterexample: after init and addHosts [] — a sequence in which
the partitioner was never set and no host was ever registered, and no
call panicked — getMetadataReadOnly is NOT nil: addHosts publishes
unconditionally, so "nil whenever the partitioner is not yet known or
no hosts have been registered" is false. -/
theorem c9_counterexample :
    (initialManager.init failRes "ks0").2 = none ∧
    (((initialManager.init failRes "ks0").1).addHosts []).2 = none ∧
    mgrNoHosts.partitioner = "" ∧
    mgrNoHosts.hosts = [] ∧
    mgrNoHosts.getMetadataReadOnly = some 0 := by
  refine ⟨rfl, ?_, rfl, ?_, ?_⟩ <;> decide

/-- C9 amended: getMetadataReadOnly is nil exactly as long as no
snapshot has ever been stored (for any panic-free operation sequence
from the zero-value manager, the slot is nil if and only if the
snapshot heap is still empty — note a publish can happen even with no
partitioner and no hosts, e.g. via addHosts [] or keyspaceChanged);
once it is non-nil it returns the most recently stored snapshot: the
reference points one past the previously allocated cells and
dereferences to the newest heap cell. -/
theorem c9_amended_nil_before_publish (ops : List MgrOp)
    (m1 : clusterMetadataManager)
    (hrun : runOps ops initialManager = (m1, none)) :
    (m1.getMetadataReadOnly = none ↔ m1.heap = []) ∧
    ∀ a, m1.getMetadataReadOnly = some a →
      a + 1 = m1.heap.length ∧ m1.readSnapshot = m1.heap[a]? := by
  have hpl : publishedLatest m1 := by
    refine runOps_publishedLatest ops initialManager m1 hrun ⟨fun _ => rfl, ?_⟩
    intro a ha
    simp [initialManager] at ha
  constructor
  · constructor
    · exact fun h => hpl.1 h
    · intro hheap
      cases hmeta : m1.metadata with
      | none => exact hmeta
      | some a =>
        have := hpl.2 a hmeta
        rw [hheap] at this
        simp at this
  · intro a ha
    have hmeta : m1.metadata = some a := ha
    refine ⟨hpl.2 a hmeta, ?_⟩
    simp [clusterMetadataManager.readSnapshot, hmeta]

theorem c9_witness :
    runOps [MgrOp.opInit failRes "ks0", MgrOp.opAddHosts []] initialManager =
      (mgrNoHosts, none) ∧
    ((mgrNoHosts.getMetadataReadOnly = none ↔ mgrNoHosts.heap = []) ∧
     ∀ a, mgrNoHosts.getMetadataReadOnly = some a →
       a + 1 = mgrNoHosts.heap.length ∧ mgrNoHosts.readSnapshot = mgrNoHosts.heap[a]?) :=
  ⟨rfl, c9_amended_nil_before_publish
    [MgrOp.opInit failRes "ks0", MgrOp.opAddHosts []] mgrNoHosts rfl⟩

end Gocql
